import Mathlib

/-!
Verification of the Service Category Questionnaire Subsystem of the
homeServices-admin repository.

The definitions below are a shallow embedding of:
- the `QuestionnaireQuestion` / `ServiceCategory` data model and the
  `addServiceCategory` / `updateServiceCategory` / `deleteServiceCategory` /
  `fetchAllServiceCategories` operations of the service categories admin
  service (embedded in AdminProviderApprovalsScreen.tsx);
- the questionnaire editor handlers of
  AdminCategoryQuestionnaireEditorScreen.tsx (`handleEdit`, `handleDelete`,
  `handleAddOrUpdateQuestion`, `handleAddOption`, `handleRemoveOption`,
  `resetForm`);
- the `handleSave` questionnaire patch construction of the category form
  screen.

JavaScript record semantics that matter here are modelled explicitly: a
patch field can be absent from the object, present with value `undefined`,
or present with a value, and a property read of an absent key yields
`undefined`.  A store-level partial update writes each field present in the
update object, where the `FieldValue.delete()` sentinel removes the field.
A JavaScript runtime error (property access on `undefined`) is modelled by
an `Option.none` result of the handler.
-/

namespace HomeServicesAdmin

/-- JavaScript `String.prototype.trim()`: remove leading and trailing
whitespace.  Defined over the character list so that it evaluates inside
the kernel. -/
def jsTrim (s : String) : String :=
  ⟨((s.data.dropWhile Char.isWhitespace).reverse.dropWhile
      Char.isWhitespace).reverse⟩

/-- The closed answer-type enumeration
`'text' | 'number' | 'select' | 'multiselect' | 'boolean'`. -/
inductive QuestionType where
  | text
  | number
  | select
  | multiselect
  | boolean
deriving DecidableEq

/-- One questionnaire item, from the `QuestionnaireQuestion` interface of the
service categories admin service.  Optional TypeScript fields become
`Option`. -/
structure QuestionnaireQuestion where
  id : String
  question : String
  questionHi : Option String := none
  type : QuestionType
  options : Option (List String) := none
  optionsHi : Option (List String) := none
  required : Bool
  placeholder : Option String := none
  placeholderHi : Option String := none
deriving DecidableEq

/-- A stored service category document, from the `ServiceCategory` interface.
Timestamps are abstracted to naturals. -/
structure ServiceCategory where
  id : String
  name : String
  icon : String
  color : String
  description : Option String := none
  descriptionHi : Option String := none
  isActive : Bool
  order : Nat
  questionnaire : Option (List QuestionnaireQuestion) := none
  requiresVehicle : Bool := false
  createdAt : Nat := 0
  updatedAt : Nat := 0
deriving DecidableEq

/-- A JavaScript object field of a patch object: the key can be absent,
present with value `undefined`, or present with a value.  A property read
(`obj.key`) of an absent key evaluates to `undefined`, so `absent` and
`jsUndefined` are indistinguishable to a `=== undefined` test. -/
inductive PatchField (α : Type) where
  | absent : PatchField α
  | jsUndefined : PatchField α
  | val : α → PatchField α
deriving DecidableEq

/-- The `=== undefined` test on a property read: true for an absent key and
for a key explicitly set to `undefined`. -/
def PatchField.isUndefined {α : Type} : PatchField α → Bool
  | .absent => true
  | .jsUndefined => true
  | .val _ => false

/-- Apply a patch field that carries a plain value or is left out
(the plain merge the store performs for ordinary fields). -/
def PatchField.applyTo {α : Type} (p : PatchField α) (old : α) : α :=
  match p with
  | .val a => a
  | _ => old

/-- The update patch `Partial<Omit<ServiceCategory, 'id' | 'createdAt'>>`
passed to `updateServiceCategory`.  Only the fields the claims exercise are
given the full absent/undefined/value treatment; the others use the same
`PatchField` shape for uniformity. -/
structure ServiceCategoryUpdates where
  name : PatchField String := .absent
  icon : PatchField String := .absent
  color : PatchField String := .absent
  description : PatchField (Option String) := .absent
  isActive : PatchField Bool := .absent
  order : PatchField Nat := .absent
  questionnaire : PatchField (List QuestionnaireQuestion) := .absent
  requiresVehicle : PatchField Bool := .absent

/-- A write the store performs on one document field when a partial update
is applied: leave it alone (key not in the update object), set it, or
remove it (the `FieldValue.delete()` sentinel). -/
inductive FieldWrite (α : Type) where
  | keep : FieldWrite α
  | set : α → FieldWrite α
  | delete : FieldWrite α
deriving DecidableEq

/-- Store semantics of one field write against the current field value. -/
def FieldWrite.apply {α : Type} (w : FieldWrite α) (old : Option α) : Option α :=
  match w with
  | .keep => old
  | .set a => some a
  | .delete => none

/-- The `questionnaire` entry of the `updateData` object built by
`updateServiceCategory`:

    if (updates.questionnaire === undefined ||
        (Array.isArray(updates.questionnaire) && updates.questionnaire.length === 0)) {
      updateData.questionnaire = firestore.FieldValue.delete();
    }

Otherwise the spread `{...updates}` leaves the patch value in place.  Note
the `=== undefined` test is also true when the patch simply omits the key. -/
def updateDataQuestionnaire
    (q : PatchField (List QuestionnaireQuestion)) :
    FieldWrite (List QuestionnaireQuestion) :=
  match q with
  | .absent => .delete
  | .jsUndefined => .delete
  | .val l => if l.length = 0 then .delete else .set l

/-- `updateServiceCategory(categoryId, updates)` applied to the stored
document (the success path of the store round trip): the spread of
`updates` merged over the document, `updatedAt` refreshed, and the
`questionnaire` field written per `updateDataQuestionnaire`. -/
def updateServiceCategory (doc : ServiceCategory)
    (updates : ServiceCategoryUpdates) (now : Nat) : ServiceCategory :=
  { doc with
    name := updates.name.applyTo doc.name
    icon := updates.icon.applyTo doc.icon
    color := updates.color.applyTo doc.color
    description := updates.description.applyTo doc.description
    isActive := updates.isActive.applyTo doc.isActive
    order := updates.order.applyTo doc.order
    requiresVehicle := updates.requiresVehicle.applyTo doc.requiresVehicle
    questionnaire :=
      (updateDataQuestionnaire updates.questionnaire).apply doc.questionnaire
    updatedAt := now }

/-- What `fetchAllServiceCategories` reports as the questionnaire of one
stored document: the mapping is `{id: doc.id, ...doc.data()}`, so the
`questionnaire` field passes through unchanged and an absent field is read
as `undefined` (no questionnaire). -/
def fetchedQuestionnaire (doc : ServiceCategory) :
    Option (List QuestionnaireQuestion) :=
  doc.questionnaire

/-- The caller-visible result of `updateServiceCategory`: on any store
failure the catch block logs the underlying error to the console and throws
`new Error('Failed to update service category')`; the underlying message is
not attached to the thrown error. -/
def updateServiceCategoryResult (doc : ServiceCategory)
    (updates : ServiceCategoryUpdates) (now : Nat)
    (storeFailure : Option String) : Except String ServiceCategory :=
  match storeFailure with
  | some _ => .error "Failed to update service category"
  | none => .ok (updateServiceCategory doc updates now)

/-- The caller-visible result of `addServiceCategory`: on success the store
holds `{...category, createdAt: now, updatedAt: now}` under a fresh id,
which is returned; on any store failure the catch block throws
`new Error('Failed to add service category')`. -/
def addServiceCategoryResult (category : ServiceCategory) (newId : String)
    (now : Nat) (storeFailure : Option String) :
    Except String (String × ServiceCategory) :=
  match storeFailure with
  | some _ => .error "Failed to add service category"
  | none => .ok (newId, { category with id := newId, createdAt := now, updatedAt := now })

/-- The caller-visible result of `deleteServiceCategory`: on any store
failure the catch block throws `new Error('Failed to delete service category')`. -/
def deleteServiceCategoryResult (storeFailure : Option String) :
    Except String Unit :=
  match storeFailure with
  | some _ => .error "Failed to delete service category"
  | none => .ok ()

/-- The questionnaire entry of the `categoryData` patch built by the
category form `handleSave`:

    if (questionnaire.length > 0) {
      categoryData.questionnaire = questionnaire;
    } else {
      categoryData.questionnaire = undefined;
    }
-/
def handleSaveQuestionnaireField (questionnaire : List QuestionnaireQuestion) :
    PatchField (List QuestionnaireQuestion) :=
  if questionnaire.length > 0 then .val questionnaire else .jsUndefined

/-! ## Questionnaire editor (AdminCategoryQuestionnaireEditorScreen) -/

/-- The component state of the questionnaire editor screen: the working
question list, the editing index, and the form fields.  The form holds only
the English-language fields; there is no secondary-language state. -/
structure EditorState where
  questions : List QuestionnaireQuestion
  editingIndex : Option Nat := none
  question : String := ""
  type : QuestionType := .text
  required : Bool := true
  placeholder : String := ""
  options : List String := []
  optionInput : String := ""
deriving DecidableEq

/-- `resetForm`: clear the form fields to the defaults and clear the
editing index. -/
def resetForm (s : EditorState) : EditorState :=
  { s with
    question := ""
    type := .text
    required := true
    placeholder := ""
    options := []
    optionInput := ""
    editingIndex := none }

/-- `handleEdit(index)`: read `questions[index]` and load its fields into
the form, recording the editing index.  Reading an out-of-range index
yields `undefined` and the following `q.question` access throws a
TypeError, modelled by `none`. -/
def handleEdit (s : EditorState) (index : Nat) : Option EditorState :=
  match s.questions[index]? with
  | none => none
  | some q =>
    some { s with
      question := q.question
      type := q.type
      required := q.required
      placeholder := q.placeholder.getD ""
      options := q.options.getD []
      editingIndex := some index }

/-- The JavaScript `array.filter((_, i) => i !== index)` idiom used by both
`handleDelete` and `handleRemoveOption`. -/
def removeAt {α : Type} (l : List α) (index : Nat) : List α :=
  (l.enum.filter (fun p => p.1 ≠ index)).map Prod.snd

/-- The confirmed branch of `handleDelete(index)`: filter the entry out of
the list and, when the deleted entry was the one being edited, reset the
form. -/
def handleDeleteConfirmed (s : EditorState) (index : Nat) : EditorState :=
  let s1 := { s with questions := removeAt s.questions index }
  if s.editingIndex = some index then resetForm s1 else s1

/-- The question record built by `handleAddOrUpdateQuestion` from the form
fields.  Only English-language fields are populated; `placeholder.trim() ||
undefined` maps a blank placeholder to an absent field, and `options` is
kept only for option-based types. -/
def builtQuestion (id : String) (s : EditorState) : QuestionnaireQuestion :=
  { id := id
    question := jsTrim s.question
    type := s.type
    required := s.required
    placeholder := if jsTrim s.placeholder = "" then none else some (jsTrim s.placeholder)
    options :=
      if s.type = .select ∨ s.type = .multiselect then some s.options else none }

/-- Outcome of a form submit: the alert raised, if any, and the component
state afterwards. -/
structure SubmitResult where
  alertMsg : Option String
  state : EditorState
deriving DecidableEq

/-- `handleAddOrUpdateQuestion` (submitForm): validate the form, then either
replace the entry at the editing index (preserving its id) or append a new
entry with id `q_${Date.now()}`, and reset the form.  A validation failure
alerts and returns with the state untouched.  If the editing index is set
but out of range, `questions[editingIndex].id` throws, modelled by `none`. -/
def handleAddOrUpdateQuestion (s : EditorState) (now : Nat) :
    Option SubmitResult :=
  if jsTrim s.question = "" then
    some ⟨some "Please enter a question", s⟩
  else if (s.type = .select ∨ s.type = .multiselect) ∧ s.options.length = 0 then
    some ⟨some "Please add at least one option", s⟩
  else
    match s.editingIndex with
    | some i =>
      match s.questions[i]? with
      | none => none
      | some old =>
        some ⟨none,
          resetForm { s with questions := s.questions.set i (builtQuestion old.id s) }⟩
    | none =>
      some ⟨none,
        resetForm { s with
          questions := s.questions ++ [builtQuestion ("q_" ++ toString now) s] }⟩

/-- `handleAddOption`: a blank input silently returns; a duplicate of an
existing primary option alerts; otherwise the trimmed option is appended
and the input cleared. -/
def handleAddOption (s : EditorState) : Option String × EditorState :=
  if jsTrim s.optionInput = "" then (none, s)
  else if s.options.contains (jsTrim s.optionInput) then
    (some "This option already exists", s)
  else
    (none, { s with
      options := s.options ++ [jsTrim s.optionInput]
      optionInput := "" })

/-- `handleRemoveOption(index)`: filter the entry out of the primary option
list.  The form state has no secondary option list, so nothing else is
touched. -/
def handleRemoveOption (s : EditorState) (index : Nat) : EditorState :=
  { s with options := removeAt s.options index }

/-! ## Auxiliary list lemmas -/

theorem enumFrom_filter_ne_map_snd {α : Type} (l : List α) (n k : Nat)
    (h : k < n) :
    ((List.enumFrom n l).filter (fun p => p.1 ≠ k)).map Prod.snd = l := by
  induction l generalizing n with
  | nil => simp
  | cons a t ih =>
    have hne : n ≠ k := by omega
    simp [List.enumFrom_cons, List.filter_cons, hne]
    simpa using ih (n + 1) (by omega)

theorem enumFrom_filter_eraseIdx {α : Type} (l : List α) (n j : Nat) :
    ((List.enumFrom n l).filter (fun p => p.1 ≠ (n + j))).map Prod.snd
      = l.eraseIdx j := by
  induction l generalizing n j with
  | nil => simp
  | cons a t ih =>
    cases j with
    | zero =>
      simp [List.enumFrom_cons, List.filter_cons]
      simpa using enumFrom_filter_ne_map_snd t (n + 1) n (by omega)
    | succ j2 =>
      have e : n + (j2 + 1) = (n + 1) + j2 := by omega
      have hne : n ≠ (n + 1) + j2 := by omega
      rw [e]
      simp [List.enumFrom_cons, List.filter_cons, List.eraseIdx_cons_succ, hne]
      simpa using ih (n + 1) j2

/-- The JavaScript index-filter idiom agrees with `List.eraseIdx` on all
inputs (including out-of-range indices, where both are the identity). -/
theorem removeAt_eq_eraseIdx {α : Type} (l : List α) (i : Nat) :
    removeAt l i = l.eraseIdx i := by
  have := enumFrom_filter_eraseIdx l 0 i
  simpa [removeAt, List.enum] using this

theorem set_self_of_getElem {α : Type} (l : List α) (i : Nat) (a : α)
    (h : l[i]? = some a) : l.set i a = l := by
  induction l generalizing i with
  | nil => simp at h
  | cons x t ih =>
    cases i with
    | zero => simp_all
    | succ j =>
      simp at h
      simp [List.set, ih j h]

/-! ## Concrete fixtures used by witnesses and counterexamples -/

/-- A stored select-type question with English content only. -/
def pipeQuestion : QuestionnaireQuestion :=
  { id := "q_1"
    question := "Pipe material?"
    type := .select
    options := some ["Copper", "PVC"]
    required := true }

/-- A stored category that owns a one-question questionnaire. -/
def docPlumbing : ServiceCategory :=
  { id := "cat1"
    name := "Plumbing"
    icon := "plumbing"
    color := "#2196F3"
    isActive := true
    order := 1
    questionnaire := some [pipeQuestion]
    createdAt := 1
    updatedAt := 1 }

/-- An update patch that only toggles `isActive` and does not mention the
`questionnaire` key at all. -/
def patchToggleActive : ServiceCategoryUpdates :=
  { isActive := .val false }

/-- An update patch that explicitly carries an empty questionnaire list. -/
def patchEmptyQuestionnaire : ServiceCategoryUpdates :=
  { questionnaire := .val [] }

/-- An update patch that carries a non-empty replacement questionnaire. -/
def patchNewQuestionnaire : ServiceCategoryUpdates :=
  { questionnaire := .val [{ id := "q_9"
                             question := "Drain length?"
                             type := .number
                             required := false }] }

/-! ## C1: clearing the questionnaire issues a field deletion -/

/-- C1: for every category update whose patch `questionnaire` is
`undefined` (explicitly, or as an absent key, which a `=== undefined` read
cannot distinguish) or an empty list, `updateServiceCategory` writes the
`FieldValue.delete()` sentinel for `questionnaire`, the stored document
afterwards has no `questionnaire` field, and a subsequent fetch reports no
questionnaire for the category. -/
theorem updateServiceCategory_clears_questionnaire
    (doc : ServiceCategory) (updates : ServiceCategoryUpdates) (now : Nat)
    (h : updates.questionnaire = .jsUndefined ∨ updates.questionnaire = .absent ∨
         updates.questionnaire = .val []) :
    updateDataQuestionnaire updates.questionnaire = .delete ∧
    (updateServiceCategory doc updates now).questionnaire = none ∧
    fetchedQuestionnaire (updateServiceCategory doc updates now) = none := by
  have hdel : updateDataQuestionnaire updates.questionnaire = .delete := by
    rcases h with h | h | h <;> simp [h, updateDataQuestionnaire]
  refine ⟨hdel, ?_, ?_⟩ <;>
    simp [updateServiceCategory, fetchedQuestionnaire, hdel, FieldWrite.apply]

/-- C1 witness: a save of the category form with an empty editor list
builds the `undefined` patch entry, and the update on the concrete stored
category removes the field. -/
theorem updateServiceCategory_clears_questionnaire_witness :
    handleSaveQuestionnaireField [] = .jsUndefined ∧
    (updateServiceCategory docPlumbing
      { patchToggleActive with questionnaire := handleSaveQuestionnaireField [] }
      7).questionnaire = none := by
  refine ⟨rfl, ?_⟩
  exact (updateServiceCategory_clears_questionnaire docPlumbing _ 7
    (Or.inl rfl)).2.1

/-! ## C2: a patch that does not mention the questionnaire -/

/-- C2 (failing input): the stored category `docPlumbing` holds a
one-question questionnaire; the patch `patchToggleActive` only toggles
`isActive` and leaves the `questionnaire` key absent.  Because
`updates.questionnaire === undefined` is also true for an absent key, the
update writes a field deletion and the stored questionnaire is erased,
although the claim (and the code comment, which speaks of a questionnaire
"explicitly set to undefined") requires it to be left unchanged. -/
theorem updateServiceCategory_deletes_unmentioned_questionnaire :
    docPlumbing.questionnaire = some [pipeQuestion] ∧
    patchToggleActive.questionnaire = PatchField.absent ∧
    (updateServiceCategory docPlumbing patchToggleActive 5).isActive = false ∧
    (updateServiceCategory docPlumbing patchToggleActive 5).questionnaire
      = none := by
  refine ⟨rfl, rfl, rfl, rfl⟩

/-! ## C3: a non-empty patch questionnaire replaces the stored list -/

/-- The question ids stored on a category document. -/
def storedQuestionIds (doc : ServiceCategory) : List String :=
  (doc.questionnaire.getD []).map (fun q => q.id)

/-- C3: for every update whose patch carries a non-empty questionnaire
list, the stored list afterwards is exactly the patch list (wholesale
replacement, no element-wise merge), every stored question id afterwards
comes from the new list, and a question id that occurs only in the old
stored list does not appear afterwards. -/
theorem updateServiceCategory_replaces_questionnaire
    (doc : ServiceCategory) (updates : ServiceCategoryUpdates) (now : Nat)
    (l : List QuestionnaireQuestion)
    (hq : updates.questionnaire = .val l) (hne : l ≠ []) :
    (updateServiceCategory doc updates now).questionnaire = some l ∧
    storedQuestionIds (updateServiceCategory doc updates now)
      = l.map (fun q => q.id) ∧
    (∀ qid, qid ∈ storedQuestionIds doc →
      qid ∉ l.map (fun q => q.id) →
      qid ∉ storedQuestionIds (updateServiceCategory doc updates now)) := by
  have hlen : ¬ l.length = 0 := by
    simpa [List.length_eq_zero] using hne
  have hstore : (updateServiceCategory doc updates now).questionnaire = some l := by
    simp [updateServiceCategory, updateDataQuestionnaire, hq, hlen,
      FieldWrite.apply]
  refine ⟨hstore, ?_, ?_⟩
  · simp [storedQuestionIds, hstore]
  · intro qid _ hnew
    simp [storedQuestionIds, hstore, hnew]

/-- C3 witness: replacing the concrete one-question questionnaire by a
different non-empty list keeps exactly the new ids; the stale id `q_1`
does not reappear. -/
theorem updateServiceCategory_replaces_questionnaire_witness :
    (updateServiceCategory docPlumbing patchNewQuestionnaire 9).questionnaire
      = patchNewQuestionnaire.questionnaire.applyTo [] ∧
    "q_1" ∉ storedQuestionIds
      (updateServiceCategory docPlumbing patchNewQuestionnaire 9) := by
  have h := updateServiceCategory_replaces_questionnaire docPlumbing
    patchNewQuestionnaire 9 _ rfl (by simp)
  refine ⟨h.1, h.2.2 "q_1" (by simp [storedQuestionIds, docPlumbing, pipeQuestion]) (by simp [patchNewQuestionnaire])⟩

/-! ## C9: failure semantics of the store round trips -/

/-- C9 (counterexample): with the underlying store failure message
`"permission denied"`, the caller receives exactly the fixed generic error
`"Failed to update service category"`; the same caller-visible error is
produced by a different underlying cause, so the error the caller receives
cannot carry the underlying store message. -/
theorem updateServiceCategory_error_not_carrying_cause :
    updateServiceCategoryResult docPlumbing patchNewQuestionnaire 5
        (some "permission denied")
      = Except.error "Failed to update service category" ∧
    updateServiceCategoryResult docPlumbing patchNewQuestionnaire 5
        (some "permission denied")
      = updateServiceCategoryResult docPlumbing patchNewQuestionnaire 5
        (some "document not found") ∧
    ("Failed to update service category" : String) ≠ "permission denied" := by
  refine ⟨rfl, rfl, by decide⟩

/-- C9 (amended): every store failure during create, update or delete of a
category surfaces to the caller as a generic operation-failed error whose
message is a fixed constant independent of the underlying cause (the cause
is only logged, not attached), and the failing call yields the error
directly with no automatic retry. -/
theorem storeFailure_surfaces_generic_error
    (doc category : ServiceCategory) (updates : ServiceCategoryUpdates)
    (now : Nat) (newId : String) (cause : String) :
    updateServiceCategoryResult doc updates now (some cause)
      = Except.error "Failed to update service category" ∧
    addServiceCategoryResult category newId now (some cause)
      = Except.error "Failed to add service category" ∧
    deleteServiceCategoryResult (some cause)
      = Except.error "Failed to delete service category" := by
  exact ⟨rfl, rfl, rfl⟩

/-- C9 witness: a concrete failing update surfaces the fixed generic
message. -/
theorem storeFailure_surfaces_generic_error_witness :
    updateServiceCategoryResult docPlumbing patchToggleActive 5
        (some "network unreachable")
      = Except.error "Failed to update service category" :=
  (storeFailure_surfaces_generic_error docPlumbing docPlumbing
    patchToggleActive 5 "cat9" "network unreachable").1

/-! ## Shape of a successful form submit -/

/-- A successful submit with an editing index set replaces exactly the
entry at that index, reusing the id found there, and resets the form. -/
theorem submit_success_replace
    (s : EditorState) (now : Nat) (i : Nat) (r : EditorState)
    (hidx : s.editingIndex = some i)
    (h : handleAddOrUpdateQuestion s now = some ⟨none, r⟩) :
    ∃ old, s.questions[i]? = some old ∧
      r = resetForm
        { s with questions := s.questions.set i (builtQuestion old.id s) } := by
  rw [hidx]
  unfold handleAddOrUpdateQuestion at h
  rw [hidx] at h
  dsimp only at h
  split at h
  · simp at h
  · split at h
    · simp at h
    · cases hq : s.questions[i]? with
      | none => rw [hq] at h; simp at h
      | some old =>
        rw [hq] at h
        simp only [Option.some.injEq, SubmitResult.mk.injEq, true_and] at h
        exact ⟨old, rfl, h.symm⟩

/-- A successful submit with no editing index appends exactly one new entry
carrying the generated id `q_${Date.now()}` and resets the form. -/
theorem submit_success_append
    (s : EditorState) (now : Nat) (r : EditorState)
    (hidx : s.editingIndex = none)
    (h : handleAddOrUpdateQuestion s now = some ⟨none, r⟩) :
    r = resetForm
      { s with questions :=
          s.questions ++ [builtQuestion ("q_" ++ toString now) s] } := by
  rw [hidx]
  unfold handleAddOrUpdateQuestion at h
  rw [hidx] at h
  dsimp only at h
  split at h
  · simp at h
  · split at h
    · simp at h
    · simp only [Option.some.injEq, SubmitResult.mk.injEq, true_and] at h
      exact h.symm

/-! ## C4: validation failures mutate nothing and name the failed rule -/

/-- C4: whenever the primary prompt is blank after trimming, or the answer
type is select/multiselect with zero options, `handleAddOrUpdateQuestion`
alerts with the message of the first violated rule and returns the
component state completely unchanged (in particular the question list and
the editing index are untouched). -/
theorem handleAddOrUpdateQuestion_validation_failure
    (s : EditorState) (now : Nat)
    (h : jsTrim s.question = "" ∨
         ((s.type = .select ∨ s.type = .multiselect) ∧ s.options.length = 0)) :
    handleAddOrUpdateQuestion s now =
      some ⟨some (if jsTrim s.question = "" then "Please enter a question"
                  else "Please add at least one option"), s⟩ := by
  rcases h with h | h
  · simp [handleAddOrUpdateQuestion, h]
  · by_cases h1 : jsTrim s.question = ""
    · simp [handleAddOrUpdateQuestion, h1]
    · simp [handleAddOrUpdateQuestion, h1, h]

/-- C4 witness: a select-type form with no options fails validation with
the option-rule message and leaves the one-question list and the editing
index unchanged. -/
theorem handleAddOrUpdateQuestion_validation_failure_witness :
    handleAddOrUpdateQuestion
        { questions := [pipeQuestion], editingIndex := some 0,
          question := "Pipe colour?", type := .select, options := [] } 21
      = some ⟨some "Please add at least one option",
          { questions := [pipeQuestion], editingIndex := some 0,
            question := "Pipe colour?", type := .select, options := [] }⟩ := by
  have h := handleAddOrUpdateQuestion_validation_failure
    { questions := [pipeQuestion], editingIndex := some 0,
      question := "Pipe colour?", type := .select, options := [] } 21
    (Or.inr ⟨Or.inl rfl, rfl⟩)
  simpa using h

/-! ## C5: editing replaces in place, creating appends -/

/-- C5: `handleEdit` at a stored index records that index and leaves the
question list untouched; a successful submit with an editing index set
yields a list of the same length whose entry at that index is the rebuilt
question carrying the original id, with every other position unchanged (no
duplicate is appended); a successful submit with no editing index appends
exactly one new entry, at the end, carrying the freshly generated id
`q_${Date.now()}`. -/
theorem submitForm_edit_replaces_in_place
    (s : EditorState) (now : Nat) :
    (∀ i s1, handleEdit s i = some s1 →
       s1.editingIndex = some i ∧ s1.questions = s.questions) ∧
    (∀ i r, s.editingIndex = some i →
       handleAddOrUpdateQuestion s now = some ⟨none, r⟩ →
       r.questions.length = s.questions.length ∧
       (∃ old, s.questions[i]? = some old ∧
          r.questions[i]? = some (builtQuestion old.id s)) ∧
       (∀ j, j ≠ i → r.questions[j]? = s.questions[j]?)) ∧
    (s.editingIndex = none →
       ∀ r, handleAddOrUpdateQuestion s now = some ⟨none, r⟩ →
       r.questions = s.questions ++ [builtQuestion ("q_" ++ toString now) s]) := by
  refine ⟨?_, ?_, ?_⟩
  · intro i s1 h1
    unfold handleEdit at h1
    cases hq : s.questions[i]? with
    | none => rw [hq] at h1; simp at h1
    | some q =>
      rw [hq] at h1
      dsimp only at h1
      simp only [Option.some.injEq] at h1
      subst h1
      exact ⟨rfl, rfl⟩
  · intro i r hidx h
    obtain ⟨old, hq, hr⟩ := submit_success_replace s now i r hidx h
    have hrq : r.questions = s.questions.set i (builtQuestion old.id s) := by
      rw [hr]; rfl
    obtain ⟨hlt, -⟩ := List.getElem?_eq_some.mp hq
    refine ⟨?_, ⟨old, hq, ?_⟩, ?_⟩
    · rw [hrq, List.length_set]
    · rw [hrq]
      exact List.getElem?_set_self (by simpa using hlt)
    · intro j hj
      rw [hrq]
      exact List.getElem?_set_ne (fun hij => hj hij.symm)
  · intro hidx r h
    have hr := submit_success_append s now r hidx h
    rw [hr]
    rfl

/-- A concrete edit session: the stored question `q_1` loaded at index 0
with its prompt changed. -/
def c5EditSession : EditorState :=
  { questions := [pipeQuestion]
    editingIndex := some 0
    question := "Pipe material (edited)?"
    type := .text }

/-- The editor state after submitting the concrete edit session. -/
def c5Result : EditorState :=
  ((handleAddOrUpdateQuestion c5EditSession 13).getD ⟨none, c5EditSession⟩).state

/-- C5 witness: submitting the concrete edit session keeps the list length
and keeps the id `q_1` at position 0. -/
theorem submitForm_edit_replaces_in_place_witness :
    c5Result.questions.length = c5EditSession.questions.length ∧
    (c5Result.questions[0]?.map fun q => q.id) = some "q_1" := by
  refine ⟨((submitForm_edit_replaces_in_place c5EditSession 13).2.1 0 c5Result
    rfl rfl).1, rfl⟩

/-! ## C6: handleEdit at an invalid index -/

/-- An editor over an empty question list. -/
def editorEmpty : EditorState := { questions := [] }

/-- C6 (counterexample): at the invalid index 0 over an empty question
list, `handleEdit` does not silently no-op — `questions[0]` is `undefined`
and the `q.question` read throws, modelled by the `none` outcome, which
differs from the unchanged-state outcome the claim requires. -/
theorem handleEdit_out_of_range_not_noop :
    handleEdit editorEmpty 0 = none ∧
    handleEdit editorEmpty 0 ≠ some editorEmpty := by
  exact ⟨rfl, by simp [handleEdit, editorEmpty]⟩

/-- C6 (amended): for every index that is not a valid position in the
current list, `handleEdit` raises the modelled runtime TypeError instead of
silently no-oping; no state change occurs because the failure happens
before any field assignment. -/
theorem handleEdit_out_of_range_throws
    (s : EditorState) (index : Nat) (h : s.questions.length ≤ index) :
    handleEdit s index = none := by
  unfold handleEdit
  rw [List.getElem?_eq_none h]

/-- C6 witness: index 3 over the empty list is invalid and the handler
errors there. -/
theorem handleEdit_out_of_range_throws_witness :
    editorEmpty.questions.length ≤ 3 ∧ handleEdit editorEmpty 3 = none :=
  ⟨by decide, handleEdit_out_of_range_throws editorEmpty 3 (by decide)⟩

/-! ## C7: option removal and the secondary option list -/

/-- A legacy bilingual stored question with aligned Hindi options. -/
def pipeQuestionBilingual : QuestionnaireQuestion :=
  { id := "q_2"
    question := "Pipe material?"
    questionHi := some "Pipe material (HI)?"
    type := .select
    options := some ["Copper", "PVC", "Steel"]
    optionsHi := some ["Copper-HI", "PVC-HI", "Steel-HI"]
    required := true }

/-- An editor session opened on the one bilingual question. -/
def editorBilingual : EditorState := { questions := [pipeQuestionBilingual] }

/-- The form state after loading the bilingual question for editing. -/
def c7Edited : EditorState := (handleEdit editorBilingual 0).getD editorBilingual

/-- The secondary options of the entry at index 0 after loading the
bilingual question into the form, removing primary option 0, and
submitting. -/
def c7Result : Option (Option (List String)) :=
  match handleEdit editorBilingual 0 with
  | none => none
  | some s1 =>
    match handleAddOrUpdateQuestion (handleRemoveOption s1 0) 9 with
    | some ⟨none, s2⟩ =>
      match s2.questions[0]? with
      | some q => some q.optionsHi
      | none => none
    | _ => none

/-- C7 (counterexample): removing primary option 0 of the bilingual
question and saving does not leave the positionally realigned secondary
list `["PVC-HI", "Steel-HI"]` — the saved entry has no secondary options at
all. -/
theorem removeOption_secondary_not_aligned :
    c7Result = some none ∧
    c7Result ≠ some (some ["PVC-HI", "Steel-HI"]) := by
  exact ⟨rfl, by decide⟩

/-- C7 (amended): `handleRemoveOption` filters only the primary option
list — entry `i` is removed and every higher-indexed primary option shifts
down by one — and changes nothing else; the form state carries no
secondary option list, and the entry written over the edited position by a
successful submit has its secondary-language fields absent (the secondary
options of the question being edited are dropped wholesale, not
realigned). -/
theorem handleRemoveOption_primary_only
    (s : EditorState) (i : Nat) :
    (handleRemoveOption s i).options = s.options.eraseIdx i ∧
    (∀ j, i ≤ j → (handleRemoveOption s i).options[j]? = s.options[j + 1]?) ∧
    (handleRemoveOption s i).questions = s.questions ∧
    (handleRemoveOption s i).editingIndex = s.editingIndex ∧
    (∀ now j r, s.editingIndex = some j →
       handleAddOrUpdateQuestion (handleRemoveOption s i) now = some ⟨none, r⟩ →
       ∀ q, r.questions[j]? = some q →
         q.optionsHi = none ∧ q.questionHi = none ∧ q.placeholderHi = none) := by
  refine ⟨?_, ?_, rfl, rfl, ?_⟩
  · simp [handleRemoveOption, removeAt_eq_eraseIdx]
  · intro j hj
    show (removeAt s.options i)[j]? = s.options[j + 1]?
    rw [removeAt_eq_eraseIdx]
    exact List.getElem?_eraseIdx_of_ge s.options i j hj
  · intro now j r hidx h q hq
    obtain ⟨old, hold, hr⟩ :=
      submit_success_replace (handleRemoveOption s i) now j r hidx h
    have hrq : r.questions
        = s.questions.set j (builtQuestion old.id (handleRemoveOption s i)) := by
      rw [hr]; rfl
    have hset : r.questions[j]?
        = some (builtQuestion old.id (handleRemoveOption s i)) := by
      rw [hrq]
      exact List.getElem?_set_self
        (by simpa using (List.getElem?_eq_some.mp hold).1)
    rw [hset] at hq
    injection hq with h2
    subst h2
    exact ⟨rfl, rfl, rfl⟩

/-- The form state after loading the bilingual question for editing and
removing primary option 0, then submitting at timestamp 9. -/
def c7ResultState : EditorState :=
  ((handleAddOrUpdateQuestion (handleRemoveOption c7Edited 0) 9).getD
    ⟨none, c7Edited⟩).state

/-- The entry stored at position 0 after the concrete remove-and-save
round trip. -/
def c7Entry : QuestionnaireQuestion :=
  (c7ResultState.questions[0]?).getD pipeQuestion

/-- C7 witness: on the concrete bilingual session, removing primary option
0 leaves the shifted primary list and the saved entry carries no secondary
options. -/
theorem handleRemoveOption_primary_only_witness :
    (handleRemoveOption c7Edited 0).options = ["PVC", "Steel"] ∧
    c7Entry.optionsHi = none := by
  constructor
  · rw [(handleRemoveOption_primary_only c7Edited 0).1]
    rfl
  · exact ((handleRemoveOption_primary_only c7Edited 0).2.2.2.2 9 0
      c7ResultState rfl rfl c7Entry rfl).1

/-! ## C8: uniqueness of question ids -/

/-- An editor about to create its first question. -/
def editorFirstAdd : EditorState :=
  { questions := [], question := "First question" }

/-- Ids after two creates whose `Date.now()` readings are both 5. -/
def c8Ids : Option (List String) :=
  match handleAddOrUpdateQuestion editorFirstAdd 5 with
  | some r1 =>
    match handleAddOrUpdateQuestion
        { r1.state with question := "Second question" } 5 with
    | some r2 => some (r2.state.questions.map fun q => q.id)
    | none => none
  | none => none

/-- C8 (counterexample): two creates in the same millisecond (both
`Date.now()` readings equal 5) produce two questions with the identical id
`q_5`, so the generated id is not always distinct from the ids already in
the list and the uniqueness invariant is violated by a legitimate operation
sequence. -/
theorem duplicate_ids_on_equal_timestamps :
    c8Ids = some ["q_5", "q_5"] ∧
    ¬ (["q_5", "q_5"] : List String).Nodup := by
  exact ⟨rfl, by simp⟩

/-- Shape of a successful `handleEdit`: the question list is untouched and
the editing index records the loaded position. -/
theorem handleEdit_success_shape (s : EditorState) (i : Nat)
    (s1 : EditorState) (h : handleEdit s i = some s1) :
    s1.questions = s.questions ∧ s1.editingIndex = some i := by
  unfold handleEdit at h
  cases hq : s.questions[i]? with
  | none => rw [hq] at h; simp at h
  | some q =>
    rw [hq] at h
    dsimp only at h
    simp only [Option.some.injEq] at h
    subst h
    exact ⟨rfl, rfl⟩

/-- C8 (amended): provided the id generated from the submit timestamp is
not already present in the list — a distinctness the code itself does not
enforce — every editor operation preserves uniqueness of the question ids:
a replacing submit reuses the id in place, an appending submit adds the
fresh id, a validation failure and `handleEdit` leave the list untouched,
and deletion only removes an entry. -/
theorem editor_preserves_id_uniqueness
    (s : EditorState) (now : Nat)
    (hnodup : (s.questions.map fun q => q.id).Nodup)
    (hfresh : ("q_" ++ toString now) ∉ s.questions.map fun q => q.id) :
    (∀ r, handleAddOrUpdateQuestion s now = some r →
       (r.state.questions.map fun q => q.id).Nodup) ∧
    (∀ i, ((handleDeleteConfirmed s i).questions.map fun q => q.id).Nodup) ∧
    (∀ i s1, handleEdit s i = some s1 →
       (s1.questions.map fun q => q.id).Nodup) := by
  refine ⟨?_, ?_, ?_⟩
  · intro r h
    unfold handleAddOrUpdateQuestion at h
    split at h
    · injection h with h2
      subst h2
      exact hnodup
    · split at h
      · injection h with h2
        subst h2
        exact hnodup
      · cases hidx : s.editingIndex with
        | some i =>
          rw [hidx] at h
          dsimp only at h
          cases hq : s.questions[i]? with
          | none => rw [hq] at h; simp at h
          | some old =>
            rw [hq] at h
            injection h with h2
            subst h2
            have hm : ((s.questions.set i (builtQuestion old.id s)).map
                fun q => q.id) = s.questions.map fun q => q.id := by
              rw [List.map_set]
              exact set_self_of_getElem _ i old.id
                (by rw [List.getElem?_map, hq]; rfl)
            show ((s.questions.set i (builtQuestion old.id s)).map
              fun q => q.id).Nodup
            rw [hm]
            exact hnodup
        | none =>
          rw [hidx] at h
          dsimp only at h
          injection h with h2
          subst h2
          show ((s.questions ++ [builtQuestion ("q_" ++ toString now) s]).map
            fun q => q.id).Nodup
          rw [List.map_append, List.nodup_append]
          refine ⟨hnodup, by simp, ?_⟩
          intro a ha hb
          simp only [List.map_cons, List.map_nil, List.mem_singleton] at hb
          subst hb
          exact hfresh (by simpa [builtQuestion] using ha)
  · intro i
    have hq : (handleDeleteConfirmed s i).questions = removeAt s.questions i := by
      by_cases hc : s.editingIndex = some i <;>
        simp [handleDeleteConfirmed, hc, resetForm]
    rw [hq, removeAt_eq_eraseIdx]
    exact List.Nodup.sublist
      ((List.eraseIdx_sublist s.questions i).map fun q => q.id) hnodup
  · intro i s1 h1
    rw [(handleEdit_success_shape s i s1 h1).1]
    exact hnodup

/-- The submit outcome of the first concrete create. -/
def c8AfterFirst : SubmitResult :=
  (handleAddOrUpdateQuestion editorFirstAdd 5).getD ⟨none, editorFirstAdd⟩

/-- C8 witness: starting from the empty list (trivially unique ids, fresh
id not present), the first create preserves uniqueness. -/
theorem editor_preserves_id_uniqueness_witness :
    (editorFirstAdd.questions.map fun q => q.id).Nodup ∧
    (c8AfterFirst.state.questions.map fun q => q.id).Nodup := by
  refine ⟨by simp [editorFirstAdd], ?_⟩
  exact (editor_preserves_id_uniqueness editorFirstAdd 5
    (by simp [editorFirstAdd]) (by simp [editorFirstAdd])).1 c8AfterFirst rfl

/-! ## C10: submitted questions carry only English fields -/

/-- C10: every question record written by a successful submit carries only
the English-language fields — whether it replaces the entry at the editing
index or is appended at the end, the written entry has `questionHi`,
`optionsHi` and `placeholderHi` absent.  In particular, editing a legacy
bilingual question via `handleEdit` followed by a successful submit
replaces it by an entry with all secondary-language fields stripped. -/
theorem submit_writes_english_only
    (s : EditorState) (now : Nat) (r : EditorState)
    (h : handleAddOrUpdateQuestion s now = some ⟨none, r⟩) :
    (∀ i, s.editingIndex = some i →
       ∀ q, r.questions[i]? = some q →
         q.questionHi = none ∧ q.optionsHi = none ∧ q.placeholderHi = none) ∧
    (s.editingIndex = none →
       ∀ q, r.questions.getLast? = some q →
         q.questionHi = none ∧ q.optionsHi = none ∧ q.placeholderHi = none) := by
  constructor
  · intro i hidx q hq
    obtain ⟨old, hold, hr⟩ := submit_success_replace s now i r hidx h
    have hrq : r.questions = s.questions.set i (builtQuestion old.id s) := by
      rw [hr]; rfl
    have hset : r.questions[i]? = some (builtQuestion old.id s) := by
      rw [hrq]
      exact List.getElem?_set_self
        (by simpa using (List.getElem?_eq_some.mp hold).1)
    rw [hset] at hq
    injection hq with h2
    subst h2
    exact ⟨rfl, rfl, rfl⟩
  · intro hidx q hq
    have hr := submit_success_append s now r hidx h
    have hrq : r.questions
        = s.questions ++ [builtQuestion ("q_" ++ toString now) s] := by
      rw [hr]; rfl
    rw [hrq, List.getLast?_concat] at hq
    injection hq with h2
    subst h2
    exact ⟨rfl, rfl, rfl⟩

/-- The editor state after submitting the loaded bilingual question. -/
def c10Result : EditorState :=
  ((handleAddOrUpdateQuestion c7Edited 11).getD ⟨none, c7Edited⟩).state

/-- The entry stored at position 0 after that edit round trip. -/
def c10Entry : QuestionnaireQuestion :=
  (c10Result.questions[0]?).getD pipeQuestion

/-- C10 witness: the concrete edit round trip over the bilingual question
produces an entry whose secondary-language fields are all absent. -/
theorem submit_writes_english_only_witness :
    c10Entry.questionHi = none ∧ c10Entry.optionsHi = none ∧
    c10Entry.placeholderHi = none :=
  (submit_writes_english_only c7Edited 11 c10Result rfl).1 0 rfl c10Entry rfl

end HomeServicesAdmin
